import Mathlib

/-!
Shallow embedding of `src/platforms/cuda2/src/CudaBondedUtilities.cpp`
(class `CudaBondedUtilities` of the OpenMM CUDA2 platform).

Modelling conventions:
* Atom indices are modelled as `Nat` (the C++ stores them as `int` and
  converts to `unsigned int` on packing; atom indices are non-negative).
* `CUdeviceptr` argument handles are opaque and modelled as `Nat`.
* The generated kernel text is modelled as a Lean `String`, built by the
  same concatenation steps the C++ performs with `stringstream`.
* The compiled kernel (`context.createModule` / `context.getKernel`) is
  modelled as the pair of the generated source text and the value bound to
  the `PADDED_NUM_ATOMS` preprocessor define; compilation is external to
  this translation unit and assumed to succeed.
* The `while (startAtom < numAtoms)` loop of `initialize` is translated
  with an explicit fuel argument equal to `numAtoms`; each iteration
  advances `startAtom` by at least 4, so `numAtoms` iterations always
  suffice to reach the loop exit.
* Literal `{` and `}` inside generated text are written with the escapes
  `\x7b` and `\x7d`.
-/

/-- Modelled from the spec: `CudaContext::intToString` is not under `src/`;
the spec (§6) describes it as the context "helper to render an integer as
program-text", i.e. decimal rendering. -/
def intToString (n : Nat) : String :=
  Nat.repr n

/-- One packed index block, as built by `CudaBondedUtilities::initialize`
(lines 75-88): `startAtom` is the atom-slot offset of the block, `width`
the lane width chosen by lines 76-78, `buf` the flat index buffer
`indexVec` of line 79, and `elemSize` the element size in bytes of the
device array holding it.  Line 84 creates the array with
`CudaArray::create<unsigned int>`, so `elemSize` is always 4
(`sizeof(unsigned int)`). -/
structure PackedBlock where
  startAtom : Nat
  width : Nat
  buf : List Nat
  elemSize : Nat
deriving DecidableEq, Repr

/-- Lane width chosen at a given offset (lines 76-78):
`int width = max(numAtoms-startAtom, 4); if (width == 3) width = 4;`. -/
def chosenWidth (numAtoms startAtom : Nat) : Nat :=
  let width := max (numAtoms - startAtom) 4
  if width = 3 then 4 else width

/-- The flat buffer `indexVec` of one block (lines 79-83):
`indexVec[bond*width+atom] = forceAtoms[i][bond][startAtom+atom]` for
`bond < numBonds`, `atom < width`, laid out row-major by bond.  An
out-of-range tuple read (which is undefined behavior in the C++) is
modelled by `List.getD` with default 0; `packAccesses` below records which
tuple positions are read. -/
def mkIndexVec (records : List (List Nat)) (startAtom width : Nat) : List Nat :=
  match records with
  | [] => []
  | r :: rest =>
      (List.range width).map (fun atom => r.getD (startAtom + atom) 0)
        ++ mkIndexVec rest startAtom width

/-- The packing loop `while (startAtom < numAtoms) ...` (lines 75-88).
`fuel` bounds the iteration count; `packBlocks` supplies `numAtoms`, which
always suffices since every iteration advances `startAtom` by
`chosenWidth ≥ 4`. -/
def packBlocksAux (records : List (List Nat)) (numAtoms : Nat) :
    Nat → Nat → List PackedBlock
  | 0, _ => []
  | fuel + 1, startAtom =>
      if startAtom < numAtoms then
        { startAtom := startAtom
          width := chosenWidth numAtoms startAtom
          buf := mkIndexVec records startAtom (chosenWidth numAtoms startAtom)
          elemSize := 4 }
          :: packBlocksAux records numAtoms fuel (startAtom + chosenWidth numAtoms startAtom)
      else []

/-- Packing of one term's bond records (lines 72-88): `numBonds` is the
record count and `numAtoms = forceAtoms[i][0].size()` the arity read from
the first record (line 73). -/
def packBlocks (records : List (List Nat)) : List PackedBlock :=
  packBlocksAux records ((records.getD 0 []).length) ((records.getD 0 []).length) 0

/-- The `(bond, slot)` positions of the term's bond-record tuples read by
the packing loop: line 82 reads `forceAtoms[i][bond][startAtom+atom]` for
every block, every `bond < numBonds` and every `atom < width`. -/
def packAccesses (records : List (List Nat)) : List (Nat × Nat) :=
  (packBlocks records).flatMap (fun blk =>
    (List.range records.length).flatMap (fun bond =>
      (List.range blk.width).map (fun atom => (bond, blk.startAtom + atom))))

/-- State of a `CudaBondedUtilities` object.  Fields mirror the data
members used in the .cpp: `forceAtoms`, `forceSource`, `forceGroup`,
`atomIndices`, `arguments`, `argTypes`, `prefixCode`, `numForceBuffers`,
`maxBonds`, `hasInitializedKernels`, and `kernel` (modelled as the
generated source paired with the `PADDED_NUM_ATOMS` define value). -/
structure CudaBondedUtilities where
  forceAtoms : List (List (List Nat))
  forceSource : List String
  forceGroup : List Nat
  atomIndices : List (List PackedBlock)
  arguments : List Nat
  argTypes : List String
  prefixCode : List String
  numForceBuffers : Nat
  maxBonds : Nat
  hasInitializedKernels : Bool
  kernel : Option (String × Nat)
deriving DecidableEq, Repr

/-- The constructor (line 36): `numForceBuffers(0), maxBonds(0),
hasInitializedKernels(false)`, all containers empty, no kernel yet. -/
def emptyBonded : CudaBondedUtilities where
  forceAtoms := []
  forceSource := []
  forceGroup := []
  atomIndices := []
  arguments := []
  argTypes := []
  prefixCode := []
  numForceBuffers := 0
  maxBonds := 0
  hasInitializedKernels := false
  kernel := none

/-- `CudaBondedUtilities::addInteraction` (lines 45-51). -/
def addInteraction (st : CudaBondedUtilities) (atoms : List (List Nat))
    (source : String) (group : Nat) : CudaBondedUtilities :=
  if 0 < atoms.length then
    { st with
      forceAtoms := st.forceAtoms ++ [atoms]
      forceSource := st.forceSource ++ [source]
      forceGroup := st.forceGroup ++ [group] }
  else st

/-- `CudaBondedUtilities::addArgument` (lines 53-57): pushes the buffer and
type, then returns `"customArg" + intToString(arguments.size())`. -/
def addArgument (st : CudaBondedUtilities) (data : Nat) (type : String) :
    CudaBondedUtilities × String :=
  let st' := { st with
    arguments := st.arguments ++ [data]
    argTypes := st.argTypes ++ [type] }
  (st', "customArg" ++ intToString st'.arguments.length)

/-- `CudaBondedUtilities::addPrefixCode` (lines 59-61). -/
def addPrefixCode (st : CudaBondedUtilities) (source : String) : CudaBondedUtilities :=
  { st with prefixCode := st.prefixCode ++ [source] }

/-- `string suffix1[] = {""}` (line 122). -/
def suffix1 : List String := [""]

/-- `string suffix4[] = {".x", ".y", ".z", ".w"}` (line 123). -/
def suffix4 : List String := [".x", ".y", ".z", ".w"]

/-- The three scatter lines emitted per atom by `createForceSource`
(lines 142-146).  Note the source text: all three lines scale `force.x`. -/
def atomScatter (i : Nat) : String :=
  "    atomicAdd(&forceBuffer[atom" ++ intToString (i + 1)
    ++ "], (long) (force.x*0xFFFFFFFF));\n"
    ++ "    atomicAdd(&forceBuffer[atom" ++ intToString (i + 1)
    ++ "+PADDED_NUM_ATOMS], (long) (force.x*0xFFFFFFFF));\n"
    ++ "    atomicAdd(&forceBuffer[atom" ++ intToString (i + 1)
    ++ "+PADDED_NUM_ATOMS*2], (long) (force.x*0xFFFFFFFF));\n"

/-- The loop `for (int i = 0; i < numAtoms; i++)` around the scatter lines
(lines 142-146). -/
def scatterLoop (numAtoms : Nat) : String :=
  String.join ((List.range numAtoms).map atomScatter)

/-- The index type rendered for a lane width (lines 100 and 132):
`"unsigned int" + (indexWidth == 1 ? "" : intToString(indexWidth))`. -/
def indexTypeStr (indexWidth : Nat) : String :=
  "unsigned int" ++ (if indexWidth = 1 then "" else intToString indexWidth)

/-- Line 133: `    <indexType> atoms<i> = atomIndices<forceIndex>_<i>[index];`. -/
def atomsLoadLine (forceIndex i indexWidth : Nat) : String :=
  "    " ++ indexTypeStr indexWidth ++ " atoms" ++ intToString i ++ " = atomIndices"
    ++ intToString forceIndex ++ "_" ++ intToString i ++ "[index];\n"

/-- Line 134: `    <indexType> buffers = bufferIndices<forceIndex>[index];`. -/
def buffersLoadLine (forceIndex indexWidth : Nat) : String :=
  "    " ++ indexTypeStr indexWidth ++ " buffers = bufferIndices"
    ++ intToString forceIndex ++ "[index];\n"

/-- Lines 135-138: one `atom<startAtom+j+1>`/`pos<j+1>` declaration pair
per lane `j < indexWidth`, with the lane-selector suffix from `suffix1`
or `suffix4` (lines 122-124, 131). -/
def laneLines (i startAtom indexWidth : Nat) : String :=
  String.join ((List.range indexWidth).map (fun j =>
    "    unsigned int atom" ++ intToString (startAtom + j + 1) ++ " = atoms"
      ++ intToString i ++ (if indexWidth = 1 then suffix1 else suffix4).getD j "" ++ ";\n"
      ++ "    real4 pos" ++ intToString (j + 1) ++ " = posq[atom"
      ++ intToString (j + 1) ++ "];\n"))

/-- Text emitted for one index block in the body of `createForceSource`
(lines 130-139): `indexWidth = getElementSize() / 4`, the `atoms<i>` load,
the `buffers = bufferIndices<forceIndex>[index]` load, and one
`atom.../pos...` pair per lane. -/
def blockUnpack (forceIndex i startAtom : Nat) (blk : PackedBlock) : String :=
  atomsLoadLine forceIndex i (blk.elemSize / 4)
    ++ buffersLoadLine forceIndex (blk.elemSize / 4)
    ++ laneLines i startAtom (blk.elemSize / 4)

/-- The loop over a term's index blocks (lines 128-140), carrying the
block counter `i` and the running `startAtom`, which advances by
`indexWidth` per block (line 139). -/
def unpackAux (forceIndex : Nat) : List PackedBlock → Nat → Nat → String
  | [], _, _ => ""
  | blk :: rest, i, startAtom =>
      blockUnpack forceIndex i startAtom blk
        ++ unpackAux forceIndex rest (i + 1) (startAtom + blk.elemSize / 4)

/-- `CudaBondedUtilities::createForceSource` (lines 120-149) as a pure
string builder: the group guard with mask `1<<group`, the grid-stride
loop header, the per-block unpacking, the spliced snippet, the per-atom
scatter, and the closing brace.  The `maxBonds` update of line 121 is a
side effect on the object and is accounted for in `initializeBonded`. -/
def createForceSource (forceIndex numBonds numAtoms group : Nat)
    (computeForce : String) (blocks : List PackedBlock) : String :=
  "if ((groups&" ++ intToString (2 ^ group) ++ ") != 0)\n"
    ++ "for (unsigned int index = blockIdx.x*blockDim.x+threadIdx.x; index < "
    ++ intToString numBonds ++ "; index += blockDim.x*gridDim.x) \x7b\n"
    ++ unpackAux forceIndex blocks 0 0
    ++ computeForce ++ "\n"
    ++ scatterLoop numAtoms
    ++ "\x7d\n"

/-- The parameter declaration emitted for one index block (lines 99-101):
`, const <indexType>* __restrict__ atomIndices<force>_<i>`. -/
def blockParamDecl (force i : Nat) (blk : PackedBlock) : String :=
  ", const " ++ indexTypeStr (blk.elemSize / 4) ++ "* __restrict__ atomIndices"
    ++ intToString force ++ "_" ++ intToString i

/-- The parameter declaration emitted for one extra argument (line 105):
`, <argTypes[i]>* customArg<i+1>`. -/
def argParamDecl (i : Nat) (type : String) : String :=
  ", " ++ type ++ "* customArg" ++ intToString (i + 1)

/-- The full kernel source assembled by `initialize` (lines 93-111):
prefix code, the fixed signature head, one parameter per index block, one
per extra argument, the body opener, `real energy = 0;`, one
`createForceSource` body per term, and the energy epilogue. -/
def buildKernelSource (prefixCode : List String)
    (atomIndices : List (List PackedBlock)) (argTypes : List String)
    (forceAtoms : List (List (List Nat))) (forceSource : List String)
    (forceGroup : List Nat) : String :=
  String.join prefixCode
    ++ "extern \"C\" __global__ void computeBondedForces(long* __restrict__ forceBuffer, real* __restrict__ energyBuffer, const real4* __restrict__ posq, int groups"
    ++ String.join ((List.range atomIndices.length).map (fun force =>
        String.join ((List.range (atomIndices.getD force []).length).map (fun i =>
          blockParamDecl force i ((atomIndices.getD force []).getD i
            { startAtom := 0, width := 0, buf := [], elemSize := 4 })))))
    ++ String.join ((List.range argTypes.length).map (fun i =>
        argParamDecl i (argTypes.getD i "")))
    ++ ") \x7b\n"
    ++ "real energy = 0;\n"
    ++ String.join ((List.range forceAtoms.length).map (fun force =>
        createForceSource force (forceAtoms.getD force []).length
          ((forceAtoms.getD force []).getD 0 []).length
          (forceGroup.getD force 0) (forceSource.getD force "")
          (atomIndices.getD force [])))
    ++ "energyBuffer[blockIdx.x*blockDim.x+threadIdx.x] += energy;\n"
    ++ "\x7d\n"

/-- `CudaBondedUtilities::initialize` (lines 63-118).  `paddedNumAtoms`
stands for `context.getPaddedNumAtoms()` (line 113).  When no terms are
registered it returns at line 66 with no state change.  Otherwise it
resizes `atomIndices` to `numForces` and appends each term's packed
blocks (lines 70-89), builds and compiles the kernel source (lines
93-115, with the `maxBonds` updates performed by the `createForceSource`
calls of line 109), and clears `forceAtoms` and `forceSource` (lines
116-117). -/
def initializeBonded (paddedNumAtoms : Nat) (st : CudaBondedUtilities) :
    CudaBondedUtilities :=
  let numForces := st.forceAtoms.length
  if numForces = 0 then st
  else
    let atomIndices := (List.range numForces).map (fun i =>
      st.atomIndices.getD i [] ++ packBlocks (st.forceAtoms.getD i []))
    let src := buildKernelSource st.prefixCode atomIndices st.argTypes
      st.forceAtoms st.forceSource st.forceGroup
    { st with
      atomIndices := atomIndices
      maxBonds := st.forceAtoms.foldl (fun m fa => max m fa.length) st.maxBonds
      kernel := some (src, paddedNumAtoms)
      forceAtoms := []
      forceSource := [] }

/-- A kernel launch record: the launched module (source text and
`PADDED_NUM_ATOMS` define), the group bitmask argument, and the work size
given to `executeKernel`. -/
structure KernelLaunch where
  module : String × Nat
  groups : Nat
  workSize : Nat
deriving DecidableEq, Repr

/-- `CudaBondedUtilities::computeInteractions` (lines 151-173).  The whole
body of the function is commented out in the source, so the call changes
no state and launches nothing; the returned list of launches is empty. -/
def computeInteractions (st : CudaBondedUtilities) (groups : Nat) :
    CudaBondedUtilities × List KernelLaunch :=
  (st, [])

/-- The identifier read by line 134 of `createForceSource`:
`bufferIndices<forceIndex>`. -/
def bufferIndicesName (forceIndex : Nat) : String :=
  "bufferIndices" ++ intToString forceIndex

/-- The names of the parameters declared by the synthesized kernel
signature (lines 96-105): the four fixed parameters, one
`atomIndices<force>_<i>` per index block, and one `customArg<i+1>` per
extra argument. -/
def kernelParamNames (atomIndices : List (List PackedBlock))
    (argTypes : List String) : List String :=
  ["forceBuffer", "energyBuffer", "posq", "groups"]
    ++ (List.range atomIndices.length).flatMap (fun force =>
        (List.range (atomIndices.getD force []).length).map (fun i =>
          "atomIndices" ++ intToString force ++ "_" ++ intToString i))
    ++ (List.range argTypes.length).map (fun i => "customArg" ++ intToString (i + 1))

/-- The local names declared by the text `blockUnpack` emits for one
block: `atoms<i>` (line 133), `buffers` (line 134), and `atom<k>`,
`pos<j+1>` per lane (lines 136-137). -/
def blockLocalNames (i startAtom : Nat) (blk : PackedBlock) : List String :=
  let indexWidth := blk.elemSize / 4
  ["atoms" ++ intToString i, "buffers"]
    ++ (List.range indexWidth).flatMap (fun j =>
        ["atom" ++ intToString (startAtom + j + 1), "pos" ++ intToString (j + 1)])

/-- The loop over blocks accumulating `blockLocalNames`, mirroring
`unpackAux`. -/
def bodyLocalNamesAux : List PackedBlock → Nat → Nat → List String
  | [], _, _ => []
  | blk :: rest, i, startAtom =>
      blockLocalNames i startAtom blk
        ++ bodyLocalNamesAux rest (i + 1) (startAtom + blk.elemSize / 4)

/-- All local names the synthesizer itself declares in the kernel body for
one term (besides whatever the spliced snippet declares): `energy`
(line 107) and the per-block names. -/
def bodyLocalNames (blocks : List PackedBlock) : List String :=
  "energy" :: bodyLocalNamesAux blocks 0 0

/-- `t` occurs as a contiguous substring of `s`. -/
def OccursIn (t s : String) : Prop :=
  ∃ u v : List Char, s.data = u ++ t.data ++ v

/-- Whether `t` is an initial segment of `s` (helper for the executable
substring search). -/
def matchesAt : List Char → List Char → Bool
  | [], _ => true
  | _ :: _, [] => false
  | c :: t, d :: s => c = d && matchesAt t s

/-- Executable substring search over character lists. -/
def containsSeq (t : List Char) : List Char → Bool
  | [] => t.isEmpty
  | c :: s => matchesAt t (c :: s) || containsSeq t s

/-- A concrete term used by several concrete evaluations below: arity 2,
five bond records. -/
def exampleTermRecords : List (List Nat) := [[0, 1], [1, 2], [2, 3], [3, 4], [4, 5]]

/-- A registry state holding the one example term in group 0. -/
def exampleRegistered : CudaBondedUtilities :=
  addInteraction emptyBonded exampleTermRecords "real4 force = posq[atom1];" 0

/-- The example state after the one-time build. -/
def exampleBuilt : CudaBondedUtilities :=
  initializeBonded 9 exampleRegistered

/-! ### Helper lemmas -/

theorem strData_append (a b : String) : (a ++ b).data = a.data ++ b.data := by
  cases a
  cases b
  rfl

theorem data_head_append (a x : String) (ca : Char) (la : List Char)
    (hA : a.data = ca :: la) : (a ++ x).data = ca :: (la ++ x.data) := by
  rw [strData_append, hA]
  rfl

theorem ne_of_data_head (a b : String) (ca cb : Char) (la lb : List Char)
    (hA : a.data = ca :: la) (hB : b.data = cb :: lb) (h : ca ≠ cb) : a ≠ b := by
  intro he
  rw [he, hB] at hA
  injection hA with h1 _
  exact h h1.symm

theorem ne_append_of_length_lt (a b y : String) (h : a.length < b.length) :
    a ≠ b ++ y := by
  intro he
  have hl := congrArg String.length he
  rw [String.length_append] at hl
  omega

theorem getD_map_range {α : Type} (n i : Nat) (f : Nat → α) (d : α) (h : i < n) :
    ((List.range n).map f).getD i d = f i := by
  rw [List.getD_eq_getElem?_getD]
  simp [List.getElem?_map, List.getElem?_range, h]

theorem occursIn_of_eq_append (t s u v : String) (h : s = u ++ t ++ v) :
    OccursIn t s := by
  refine ⟨u.data, v.data, ?_⟩
  rw [h, strData_append, strData_append]

theorem occursIn_append_left (t s a : String) (h : OccursIn t s) :
    OccursIn t (a ++ s) := by
  obtain ⟨u, v, hu⟩ := h
  refine ⟨a.data ++ u, v, ?_⟩
  rw [strData_append, hu]
  simp [List.append_assoc]

theorem occursIn_append_right (t s a : String) (h : OccursIn t s) :
    OccursIn t (s ++ a) := by
  obtain ⟨u, v, hu⟩ := h
  refine ⟨u, v ++ a.data, ?_⟩
  rw [strData_append, hu]
  simp [List.append_assoc]

theorem mkIndexVec_getD (records : List (List Nat)) (s w : Nat) :
    ∀ b k : Nat, b < records.length → k < w →
      (mkIndexVec records s w).getD (b * w + k) 0
        = (records.getD b []).getD (s + k) 0 := by
  induction records with
  | nil =>
      intro b k hb _
      simp at hb
  | cons r rest ih =>
      intro b k hb hk
      have hlen : ((List.range w).map (fun atom => r.getD (s + atom) 0)).length = w := by
        simp
      cases b with
      | zero =>
          simp only [mkIndexVec, Nat.zero_mul, Nat.zero_add]
          rw [List.getD_append _ _ _ _ (by rw [hlen]; exact hk)]
          rw [List.getD_eq_getElem?_getD]
          simp [List.getElem?_map, List.getElem?_range, hk]
      | succ b' =>
          simp only [mkIndexVec]
          have hge : ((List.range w).map (fun atom => r.getD (s + atom) 0)).length
              ≤ (b' + 1) * w + k := by
            rw [hlen, Nat.succ_mul]
            omega
          rw [List.getD_append_right _ _ _ _ hge, hlen]
          have hidx : (b' + 1) * w + k - w = b' * w + k := by
            rw [Nat.succ_mul]
            omega
          rw [hidx]
          have hb' : b' < rest.length := by
            simpa using Nat.lt_of_succ_lt_succ (by simpa using hb)
          rw [ih b' k hb' hk]
          simp

theorem packBlocksAux_stop (records : List (List Nat)) (numAtoms : Nat)
    (fuel startAtom : Nat) (h : numAtoms ≤ startAtom) :
    packBlocksAux records numAtoms fuel startAtom = [] := by
  cases fuel with
  | zero => rfl
  | succ f => simp [packBlocksAux, Nat.not_lt.mpr h]

theorem chosenWidth_zero (A : Nat) : chosenWidth A 0 = max A 4 := by
  simp only [chosenWidth, Nat.sub_zero]
  split
  all_goals omega

theorem packBlocks_single (records : List (List Nat)) (A : Nat)
    (hA : 0 < A) (hlen : (records.getD 0 []).length = A) :
    packBlocks records =
      [{ startAtom := 0, width := max A 4,
         buf := mkIndexVec records 0 (max A 4), elemSize := 4 }] := by
  unfold packBlocks
  rw [hlen]
  obtain ⟨A', rfl⟩ : ∃ A', A = A' + 1 := ⟨A - 1, by omega⟩
  rw [packBlocksAux]
  rw [if_pos (Nat.succ_pos A')]
  rw [chosenWidth_zero]
  rw [packBlocksAux_stop records (A' + 1) A' (0 + max (A' + 1) 4)
    (by have := Nat.le_max_left (A' + 1) 4; omega)]

theorem buffersLoadLine_eq (f w : Nat) :
    buffersLoadLine f w
      = ("    " ++ indexTypeStr w ++ " buffers = ")
        ++ (bufferIndicesName f ++ "[index]") ++ ";\n" := by
  rw [buffersLoadLine, bufferIndicesName]
  rw [show (" buffers = bufferIndices" : String) = " buffers = " ++ "bufferIndices" from rfl]
  rw [show ("[index];\n" : String) = "[index]" ++ ";\n" from rfl]
  simp only [String.append_assoc]

theorem occursIn_buffersLoadLine (f w : Nat) :
    OccursIn (bufferIndicesName f ++ "[index]") (buffersLoadLine f w) :=
  occursIn_of_eq_append _ _ _ _ (buffersLoadLine_eq f w)

theorem mem_kernelParamNames (ai : List (List PackedBlock)) (ats : List String)
    (p : String) (hp : p ∈ kernelParamNames ai ats) :
    p = "forceBuffer" ∨ p = "energyBuffer" ∨ p = "posq" ∨ p = "groups"
      ∨ (∃ x y : String, p = "atomIndices" ++ x ++ "_" ++ y)
      ∨ (∃ x : String, p = "customArg" ++ x) := by
  simp only [kernelParamNames, List.mem_append] at hp
  rcases hp with (hp | hp) | hp
  · simp only [List.mem_cons, List.not_mem_nil, or_false] at hp
    tauto
  · obtain ⟨force, _, hp⟩ := List.mem_flatMap.mp hp
    obtain ⟨i, _, rfl⟩ := List.mem_map.mp hp
    exact Or.inr (Or.inr (Or.inr (Or.inr (Or.inl
      ⟨intToString force, intToString i, rfl⟩))))
  · obtain ⟨i, _, rfl⟩ := List.mem_map.mp hp
    exact Or.inr (Or.inr (Or.inr (Or.inr (Or.inr ⟨intToString (i + 1), rfl⟩))))

theorem mem_bodyLocalNamesAux (blocks : List PackedBlock) :
    ∀ i s q, q ∈ bodyLocalNamesAux blocks i s →
      (∃ x, q = "atoms" ++ x) ∨ q = "buffers"
        ∨ (∃ x, q = "atom" ++ x) ∨ (∃ x, q = "pos" ++ x) := by
  induction blocks with
  | nil =>
      intro i s q hq
      simp [bodyLocalNamesAux] at hq
  | cons blk rest ih =>
      intro i s q hq
      simp only [bodyLocalNamesAux, List.mem_append] at hq
      rcases hq with hq | hq
      · simp only [blockLocalNames, List.mem_cons, List.mem_append,
          List.not_mem_nil, or_false] at hq
        rcases hq with (rfl | rfl) | hq
        · exact Or.inl ⟨intToString i, rfl⟩
        · exact Or.inr (Or.inl rfl)
        obtain ⟨j, _, hj⟩ := List.mem_flatMap.mp hq
        simp only [List.mem_cons, List.not_mem_nil, or_false] at hj
        rcases hj with rfl | rfl
        · exact Or.inr (Or.inr (Or.inl ⟨intToString (s + j + 1), rfl⟩))
        · exact Or.inr (Or.inr (Or.inr ⟨intToString (j + 1), rfl⟩))
      · exact ih _ _ _ hq

theorem short_ne_bufferIndicesName (a : String) (f : Nat) (h : a.length < 13) :
    a ≠ bufferIndicesName f := by
  rw [bufferIndicesName]
  refine ne_append_of_length_lt a "bufferIndices" (intToString f) ?_
  rw [show ("bufferIndices" : String).length = 13 from rfl]
  exact h

theorem head_ne_bufferIndicesName (a x : String) (f : Nat) (ca : Char)
    (la : List Char) (hA : a.data = ca :: la) (hca : ca ≠ 'b') :
    a ++ x ≠ bufferIndicesName f := by
  have hB : (bufferIndicesName f).data
      = 'b' :: ("ufferIndices".data ++ (intToString f).data) := by
    rw [bufferIndicesName]
    exact data_head_append "bufferIndices" (intToString f) 'b' ("ufferIndices".data)
      (by decide)
  exact ne_of_data_head _ _ ca 'b' _ _ (data_head_append a x ca la hA) hB hca

/-! ### Claim theorems -/

set_option maxRecDepth 100000 in
/-- Claim C1: the spec says the per-term body scatters, for each atom, the
three distinct force components x, y and z into the force-buffer planes at
offsets 0, `PADDED_NUM_ATOMS` and `2*PADDED_NUM_ATOMS`.  Evaluating the
emitted scatter text shows the code scales `force.x` for all three planes:
the strings `force.y` and `force.z` never occur in the scatter text of a
two-atom term, so the y and z components are never written. -/
theorem C1_scatter_uses_x_for_all_three_planes :
    atomScatter 0 =
      "    atomicAdd(&forceBuffer[atom1], (long) (force.x*0xFFFFFFFF));\n"
        ++ "    atomicAdd(&forceBuffer[atom1+PADDED_NUM_ATOMS], (long) (force.x*0xFFFFFFFF));\n"
        ++ "    atomicAdd(&forceBuffer[atom1+PADDED_NUM_ATOMS*2], (long) (force.x*0xFFFFFFFF));\n"
      ∧ containsSeq ("force.y".data) ((scatterLoop 2).data) = false
      ∧ containsSeq ("force.z".data) ((scatterLoop 2).data) = false
      ∧ containsSeq ("force.x".data) ((scatterLoop 2).data) = true :=
  ⟨rfl, by decide, by decide, by decide⟩

/-- Claim C2: the spec says `compute(groupBitmask)` launches the compiled
kernel with the stored buffers, the bitmask, and a launch size from the
recorded maximum bond count.  The body of `computeInteractions` is
entirely commented out in the source, so even in a state where
`initialize` succeeded with one registered term (compiled kernel present,
`maxBonds` recorded as 5), calling it performs no launch at all. -/
theorem C2_computeInteractions_launches_nothing :
    computeInteractions exampleBuilt 1 = (exampleBuilt, [])
      ∧ (∃ m, exampleBuilt.kernel = some m)
      ∧ exampleBuilt.maxBonds = 5 :=
  ⟨rfl, ⟨_, rfl⟩, rfl⟩

/-- Claim C3: the spec says the lane width chosen at offset `o` is 4
except for a final short block (`A - o < 4`, `A - o ≠ 3`), where it is
`A - o`.  The code computes `max(numAtoms-startAtom, 4)` (line 76), so at
arity 5 offset 0 it chooses width 5 (claim says 4), and at arity 2 offset
0 it chooses width 4 (claim says 2). -/
theorem C3_chosenWidth_contradicts_claim :
    chosenWidth 5 0 = 5 ∧ chosenWidth 2 0 = 4
      ∧ (packBlocks [[10, 11, 12, 13, 14]]).map PackedBlock.width = [5] := by
  decide

/-- Claim C4: the spec says a term of arity A packs into exactly ⌈A/4⌉
blocks with lane widths in `{1, 4}`.  For an arity-5 term with one bond
record the code produces a single block of width 5 (flat buffer length 5),
not two blocks of widths 4 and 1. -/
theorem C4_packBlocks_contradicts_claim :
    (packBlocks [[10, 11, 12, 13, 14]]).length = 1
      ∧ ((packBlocks [[10, 11, 12, 13, 14]]).map PackedBlock.width ≠ [4, 1]
      ∧ ∀ blk ∈ packBlocks [[10, 11, 12, 13, 14]],
          blk.width = 5 ∧ blk.buf.length = 5) := by
  decide

/-- Claim C5: the spec says packing reads `bondRecords[bond][offset+lane]`
only in bounds whenever `A mod 4 ≠ 3`.  For a term of arity A = 1 (and
`1 mod 4 ≠ 3`) the code chooses width `max(1, 4) = 4` and reads lanes
0..3, so the position `(bond, slot) = (0, 3)` is read although `3 ≥ A`. -/
theorem C5_pack_reads_past_tuple :
    ([[7]].getD 0 []).length % 4 ≠ 3
      ∧ (0, 3) ∈ packAccesses [[7]]
      ∧ ¬ 3 < ([[7]].getD 0 []).length := by
  decide

/-- Claim C6: for every term (arity A, bond count B, all records of length
A), every bond `b < B` and every covered slot `k < A`, some packed block
covers slot `k` and stores the original atom index `bondRecords[b][k]` at
row `b`, column `k - offset` of its flat buffer. -/
theorem C6_pack_unpack_roundTrip (records : List (List Nat)) (A B b k : Nat)
    (hB : records.length = B) (harity : ∀ r ∈ records, r.length = A)
    (hb : b < B) (hk : k < A) :
    ∃ blk ∈ packBlocks records,
      blk.startAtom ≤ k ∧ k < blk.startAtom + blk.width ∧
        blk.buf.getD (b * blk.width + (k - blk.startAtom)) 0
          = (records.getD b []).getD k 0 := by
  have hA : 0 < A := by omega
  have hrec : 0 < records.length := by omega
  have hlen : (records.getD 0 []).length = A := by
    cases records with
    | nil => simp at hrec
    | cons r rest => simpa using harity r (by simp)
  rw [packBlocks_single records A hA hlen]
  refine ⟨_, List.mem_singleton.mpr rfl, Nat.zero_le k, ?_, ?_⟩
  · show k < 0 + max A 4
    have := Nat.le_max_left A 4
    omega
  · show (mkIndexVec records 0 (max A 4)).getD (b * max A 4 + (k - 0)) 0
      = (records.getD b []).getD k 0
    rw [Nat.sub_zero]
    rw [mkIndexVec_getD records 0 (max A 4) b k (by omega)
      (by have := Nat.le_max_left A 4; omega)]
    rw [Nat.zero_add]

/-- Witness for C6 at a concrete input: arity 2, two bond records,
bond 1, slot 1. -/
theorem C6_pack_unpack_roundTrip_witness :
    ∃ blk ∈ packBlocks [[5, 6], [7, 8]],
      blk.startAtom ≤ 1 ∧ 1 < blk.startAtom + blk.width ∧
        blk.buf.getD (1 * blk.width + (1 - blk.startAtom)) 0
          = ([[5, 6], [7, 8]].getD 1 []).getD 1 0 :=
  C6_pack_unpack_roundTrip [[5, 6], [7, 8]] 2 2 1 1 rfl (by decide)
    (by decide) (by decide)

/-- Claim C7: the text emitted for every index block of term `f` reads the
identifier `bufferIndices<f>` (indexed by the loop counter), yet no
parameter of the synthesized kernel signature and no local the synthesizer
declares in the body has that name. -/
theorem C7_bufferIndices_read_but_never_declared (f i startAtom : Nat)
    (blk : PackedBlock) (atomIndices : List (List PackedBlock))
    (argTypes : List String) (blocks : List PackedBlock) (p q : String)
    (hp : p ∈ kernelParamNames atomIndices argTypes)
    (hq : q ∈ bodyLocalNames blocks) :
    OccursIn (bufferIndicesName f ++ "[index]") (blockUnpack f i startAtom blk)
      ∧ p ≠ bufferIndicesName f ∧ q ≠ bufferIndicesName f := by
  refine ⟨?_, ?_, ?_⟩
  · rw [blockUnpack]
    exact occursIn_append_right _ _ _
      (occursIn_append_left _ _ _ (occursIn_buffersLoadLine f _))
  · rcases mem_kernelParamNames _ _ _ hp with rfl | rfl | rfl | rfl | ⟨x, y, rfl⟩ | ⟨x, rfl⟩
    · exact short_ne_bufferIndicesName _ f (by decide)
    · exact short_ne_bufferIndicesName _ f (by decide)
    · exact short_ne_bufferIndicesName _ f (by decide)
    · exact short_ne_bufferIndicesName _ f (by decide)
    · have h1 := data_head_append "atomIndices" x 'a'
        ['t', 'o', 'm', 'I', 'n', 'd', 'i', 'c', 'e', 's'] (by decide)
      have h2 := data_head_append ("atomIndices" ++ x) "_" 'a' _ h1
      exact head_ne_bufferIndicesName ("atomIndices" ++ x ++ "_") y f 'a' _ h2 (by decide)
    · exact head_ne_bufferIndicesName "customArg" x f 'c'
        ['u', 's', 't', 'o', 'm', 'A', 'r', 'g'] (by decide) (by decide)
  · rcases List.mem_cons.mp hq with rfl | hq'
    · exact short_ne_bufferIndicesName _ f (by decide)
    rcases mem_bodyLocalNamesAux _ _ _ _ hq' with ⟨x, rfl⟩ | rfl | ⟨x, rfl⟩ | ⟨x, rfl⟩
    · exact head_ne_bufferIndicesName "atoms" x f 'a' ['t', 'o', 'm', 's'] (by decide) (by decide)
    · exact short_ne_bufferIndicesName _ f (by decide)
    · exact head_ne_bufferIndicesName "atom" x f 'a' ['t', 'o', 'm'] (by decide) (by decide)
    · exact head_ne_bufferIndicesName "pos" x f 'p' ['o', 's'] (by decide) (by decide)

/-- Witness for C7 at a concrete input: force index 0, one width-4 block,
one extra argument, parameter `forceBuffer` and body local `energy`. -/
theorem C7_bufferIndices_read_but_never_declared_witness :
    ("forceBuffer" ∈ kernelParamNames
        [[{ startAtom := 0, width := 4, buf := [1, 2, 3, 4], elemSize := 4 }]] ["float"])
      ∧ ("energy" ∈ bodyLocalNames
          [{ startAtom := 0, width := 4, buf := [1, 2, 3, 4], elemSize := 4 }])
      ∧ (OccursIn (bufferIndicesName 0 ++ "[index]")
          (blockUnpack 0 0 0 { startAtom := 0, width := 4, buf := [1, 2, 3, 4], elemSize := 4 })
        ∧ "forceBuffer" ≠ bufferIndicesName 0 ∧ "energy" ≠ bufferIndicesName 0) :=
  ⟨by decide, by decide,
    C7_bufferIndices_read_but_never_declared 0 0 0
      { startAtom := 0, width := 4, buf := [1, 2, 3, 4], elemSize := 4 }
      [[{ startAtom := 0, width := 4, buf := [1, 2, 3, 4], elemSize := 4 }]] ["float"]
      [{ startAtom := 0, width := 4, buf := [1, 2, 3, 4], elemSize := 4 }]
      "forceBuffer" "energy" (by decide) (by decide)⟩

/-- Claim C8: `initialize` changes nothing when no terms are registered;
with at least one term it clears the bond-record and source-snippet
accumulators while keeping the freshly packed index blocks, the argument
list, and the compiled kernel handle. -/
theorem C8_initializeBonded_frame (st : CudaBondedUtilities) (pad : Nat) :
    (st.forceAtoms = [] → initializeBonded pad st = st)
      ∧ (st.forceAtoms ≠ [] →
          (initializeBonded pad st).forceAtoms = []
            ∧ (initializeBonded pad st).forceSource = []
            ∧ (∀ i, i < st.forceAtoms.length →
                (initializeBonded pad st).atomIndices.getD i []
                  = st.atomIndices.getD i [] ++ packBlocks (st.forceAtoms.getD i []))
            ∧ (initializeBonded pad st).arguments = st.arguments
            ∧ (initializeBonded pad st).argTypes = st.argTypes
            ∧ (initializeBonded pad st).kernel ≠ none) := by
  constructor
  · intro h
    simp [initializeBonded, h]
  · intro h
    have hlen : ¬ st.forceAtoms.length = 0 := fun h0 => h (List.length_eq_zero.mp h0)
    refine ⟨?_, ?_, ?_, ?_, ?_, ?_⟩
    · simp only [initializeBonded, if_neg hlen]
    · simp only [initializeBonded, if_neg hlen]
    · intro i hi
      simp only [initializeBonded, if_neg hlen]
      exact getD_map_range _ _ _ _ hi
    · simp only [initializeBonded, if_neg hlen]
    · simp only [initializeBonded, if_neg hlen]
    · simp only [initializeBonded, if_neg hlen]
      simp

/-- Witness for C8 at concrete inputs: the empty registry is unchanged,
and a registry with one two-atom term is cleared while keeping arguments
and gaining a kernel. -/
theorem C8_initializeBonded_frame_witness :
    initializeBonded 9 emptyBonded = emptyBonded
      ∧ (initializeBonded 9 exampleRegistered).forceAtoms = []
      ∧ (initializeBonded 9 exampleRegistered).forceSource = []
      ∧ (initializeBonded 9 exampleRegistered).arguments = exampleRegistered.arguments
      ∧ (initializeBonded 9 exampleRegistered).kernel ≠ none := by
  have h2 := (C8_initializeBonded_frame exampleRegistered 9).2 (by decide)
  exact ⟨(C8_initializeBonded_frame emptyBonded 9).1 rfl,
    h2.1, h2.2.1, h2.2.2.2.1, h2.2.2.2.2.2⟩

/-- Claim C9: `addInteraction` with an empty bond-record list leaves the
state entirely unchanged; with a non-empty list it appends exactly one
term (records, snippet, group) and touches nothing else. -/
theorem C9_addInteraction_appends_or_noop (st : CudaBondedUtilities)
    (atoms : List (List Nat)) (source : String) (group : Nat) :
    (atoms = [] → addInteraction st atoms source group = st)
      ∧ (atoms ≠ [] →
          (addInteraction st atoms source group).forceAtoms = st.forceAtoms ++ [atoms]
            ∧ (addInteraction st atoms source group).forceSource = st.forceSource ++ [source]
            ∧ (addInteraction st atoms source group).forceGroup = st.forceGroup ++ [group]
            ∧ (addInteraction st atoms source group).atomIndices = st.atomIndices
            ∧ (addInteraction st atoms source group).arguments = st.arguments
            ∧ (addInteraction st atoms source group).argTypes = st.argTypes
            ∧ (addInteraction st atoms source group).prefixCode = st.prefixCode
            ∧ (addInteraction st atoms source group).maxBonds = st.maxBonds
            ∧ (addInteraction st atoms source group).kernel = st.kernel) := by
  constructor
  · intro h
    simp [addInteraction, h]
  · intro h
    have hpos : 0 < atoms.length := List.length_pos.mpr h
    simp [addInteraction, if_pos hpos]

/-- Witness for C9 at concrete inputs: an empty record list is a no-op on
the fresh state; a one-record list is appended. -/
theorem C9_addInteraction_appends_or_noop_witness :
    addInteraction emptyBonded [] "snip" 0 = emptyBonded
      ∧ (addInteraction emptyBonded [[1, 2]] "snip" 0).forceAtoms
          = emptyBonded.forceAtoms ++ [[[1, 2]]]
      ∧ (addInteraction emptyBonded [[1, 2]] "snip" 0).kernel = emptyBonded.kernel := by
  have h2 := (C9_addInteraction_appends_or_noop emptyBonded [[1, 2]] "snip" 0).2 (by decide)
  exact ⟨(C9_addInteraction_appends_or_noop emptyBonded [] "snip" 0).1 rfl,
    h2.1, h2.2.2.2.2.2.2.2.2⟩

/-- Claim C10: `addArgument` appends the buffer and the type name and
returns `"customArg"` followed by the decimal rendering of the 1-based
argument count after the insertion. -/
theorem C10_addArgument_name (st : CudaBondedUtilities) (data : Nat) (type : String) :
    (addArgument st data type).1.arguments = st.arguments ++ [data]
      ∧ (addArgument st data type).1.argTypes = st.argTypes ++ [type]
      ∧ (addArgument st data type).2 = "customArg" ++ Nat.repr (st.arguments.length + 1) := by
  refine ⟨rfl, rfl, ?_⟩
  simp [addArgument, intToString, List.length_append]

/-- Witness for C10 at a concrete input. -/
theorem C10_addArgument_name_witness :
    (addArgument emptyBonded 5 "float").1.arguments = emptyBonded.arguments ++ [5]
      ∧ (addArgument emptyBonded 5 "float").1.argTypes = emptyBonded.argTypes ++ ["float"]
      ∧ (addArgument emptyBonded 5 "float").2
          = "customArg" ++ Nat.repr (emptyBonded.arguments.length + 1) :=
  C10_addArgument_name emptyBonded 5 "float"
